import Mathlib

/-!
Verification development for the podcast-hub link-resolution and
episode-synchronization engine.

The Python source (src/crawler.py, src/utils.py) is shallowly embedded:
strings are `List Char` (wrapped into `String` at the interfaces), Python
ints are `Int`/`Nat`, dictionaries become structures, exceptions become
`Except`/`Option`, and the module-level regular expressions are embedded as
executable scanners with the leftmost-match / greedy semantics the specific
patterns exhibit.  External collaborators (HTTP transport, the JSON parser,
the feed library, the database) are passed in as explicit oracles or
modelled as explicit state.
-/

/-- Decidable equality for `Except` results (used to evaluate the embedded
resolvers on concrete inputs). -/
instance {ε α : Type} [DecidableEq ε] [DecidableEq α] : DecidableEq (Except ε α) :=
  fun a b =>
    match a, b with
    | .ok x, .ok y =>
      match decEq x y with
      | isTrue h => isTrue (by rw [h])
      | isFalse h => isFalse (by intro he; cases he; exact h rfl)
    | .error x, .error y =>
      match decEq x y with
      | isTrue h => isTrue (by rw [h])
      | isFalse h => isFalse (by intro he; cases he; exact h rfl)
    | .ok _, .error _ => isFalse (by intro he; cases he)
    | .error _, .ok _ => isFalse (by intro he; cases he)

/-! ### Character classes (ASCII scope of the patterns in the source) -/

/-- ASCII digit test, the scope of the regex class used by the source. -/
def isDig (c : Char) : Bool := 48 ≤ c.toNat && c.toNat ≤ 57

/-- Numeric value of a digit character. -/
def dval (c : Char) : Nat := c.toNat - 48

/-- Whitespace accepted by Python's `int` around a numeral. -/
def isPySpace (c : Char) : Bool :=
  c.toNat = 32 || c.toNat = 9 || c.toNat = 10 || c.toNat = 13 ||
  c.toNat = 12 || c.toNat = 11

/-- The decimal digit character for a value `0 ≤ n ≤ 9`. -/
def digitChar (n : Nat) : Char :=
  match n with
  | 0 => '0' | 1 => '1' | 2 => '2' | 3 => '3' | 4 => '4'
  | 5 => '5' | 6 => '6' | 7 => '7' | 8 => '8' | _ => '9'

/-- Fuel-driven digit renderer (structural recursion so that concrete
instances evaluate inside the kernel); the fuel is always sufficient when
it is at least the number being rendered. -/
def natDigitsGo (fuel : Nat) (n : Nat) : List Char :=
  if n < 10 then [digitChar n]
  else
    match fuel with
    | 0 => []
    | f + 1 => natDigitsGo f (n / 10) ++ [digitChar (n % 10)]

/-- Decimal digit string of a natural number, as produced by Python's
`str`/f-string formatting of a non-negative int. -/
def natDigits (n : Nat) : List Char := natDigitsGo n n

/-- Value of a digit string (fold, most significant first). -/
def digitsVal (cs : List Char) : Nat :=
  cs.foldl (fun a c => 10 * a + dval c) 0

/-- Continuation of Python `int` digit parsing: digits, with a single
underscore permitted between two digits (CPython numeral grammar). -/
def digitsTail (acc : Nat) : List Char → Option Nat
  | [] => some acc
  | c :: t =>
    if isDig c then digitsTail (10 * acc + dval c) t
    else if c = '_' then
      match t with
      | c2 :: t2 => if isDig c2 then digitsTail (10 * acc + dval c2) t2 else none
      | [] => none
    else none

/-- Unsigned part of Python `int`: a non-empty digit string (with optional
grouping underscores); `none` models `ValueError`. -/
def digitsToNat? : List Char → Option Nat
  | [] => none
  | c :: t => if isDig c then digitsTail (dval c) t else none

/-- Strip the surrounding whitespace Python's `int` ignores. -/
def trimWs (cs : List Char) : List Char :=
  ((cs.dropWhile isPySpace).reverse.dropWhile isPySpace).reverse

/-- Signed part of Python's `int`: an optional single sign before the
digit string. -/
def pyIntSigned (c : Char) (rest : List Char) : Option Int :=
  if c = '-' then (digitsToNat? rest).map (fun n => -(n : Int))
  else if c = '+' then (digitsToNat? rest).map (fun n => (n : Int))
  else (digitsToNat? (c :: rest)).map (fun n => (n : Int))

/-- Model of Python's `int(s)` on a string: optional surrounding whitespace,
optional single sign, then a non-empty digit string; `none` models
`ValueError`. -/
def pyInt (cs : List Char) : Option Int :=
  match trimWs cs with
  | [] => none
  | c :: rest => pyIntSigned c rest

/-! ### Generic scanning helpers shared by the regex embeddings -/

/-- Python `needle in haystack` substring test. -/
def containsSub (needle : List Char) : List Char → Bool
  | [] => needle.isEmpty
  | c :: t => needle.isPrefixOf (c :: t) || containsSub needle t

/-- `str.split(":")` on a character list (single-character separator). -/
def splitOnColon : List Char → List (List Char)
  | [] => [[]]
  | c :: t =>
    if c = ':' then [] :: splitOnColon t
    else
      match splitOnColon t with
      | h :: r => (c :: h) :: r
      | [] => [[c]]

/-- Leftmost match of the pattern `(\d+)X` for a stop character `X`: the
value of the first maximal digit run that is immediately followed by the
stop character (the backtracking of `\d+` cannot shorten a failing run, so
runs not followed by the stop character are skipped whole). -/
def searchNumBefore (stop : Char) : List Char → Option Nat
  | [] => none
  | c :: t =>
    if isDig c then
      match (c :: t).dropWhile isDig with
      | r :: _ =>
        if r = stop then some (digitsVal ((c :: t).takeWhile isDig))
        else searchNumBefore stop t
      | [] => searchNumBefore stop t
    else searchNumBefore stop t

/-- Leftmost match of `lit(\d+)`: the maximal digit run right after the
first occurrence of the literal that is followed by at least one digit. -/
def searchDigitsAfterLit (lit : List Char) : List Char → Option (List Char)
  | [] => none
  | c :: t =>
    if lit.isPrefixOf (c :: t) then
      match (c :: t).drop lit.length with
      | d :: rest =>
        if isDig d then some ((d :: rest).takeWhile isDig)
        else searchDigitsAfterLit lit t
      | [] => searchDigitsAfterLit lit t
    else searchDigitsAfterLit lit t

/-! ### DurationNormalizer (`PodcastParser._parse_duration`, crawler.py
407-440) and `format_duration` (utils.py 12-22) -/

/-- `duration_str.startswith("PT")`. -/
def isPTPrefix (cs : List Char) : Bool := ("PT".data).isPrefixOf cs

/-- Embedding of `PodcastParser._parse_duration` on the character list: the
ISO branch reads `(\d+)H`, `(\d+)M`, `(\d+)S` anywhere in the string; the
colon branches and the bare-int branch go through Python `int` with the bare
`except` mapped to the result 0. -/
def parseDurationChars (cs : List Char) : Int :=
  if cs = [] then 0
  else if isPTPrefix cs then
    let h := (searchNumBefore 'H' cs).getD 0
    let m := (searchNumBefore 'M' cs).getD 0
    let s := (searchNumBefore 'S' cs).getD 0
    ((h * 3600 + m * 60 + s : Nat) : Int)
  else
    match splitOnColon cs with
    | [a, b, c] =>
      match pyInt a, pyInt b, pyInt c with
      | some x, some y, some z => x * 3600 + y * 60 + z
      | _, _, _ => 0
    | [a, b] =>
      match pyInt a, pyInt b with
      | some x, some y => x * 60 + y
      | _, _ => 0
    | _ => (pyInt cs).getD 0

/-- `PodcastParser._parse_duration` on a string. -/
def _parse_duration (s : String) : Int := parseDurationChars s.data

/-- Zero-padding of Python's `f"{n:02d}"` (the arguments formatted this way
in the source are the minute/second remainders). -/
def pad2 (ds : List Char) : List Char :=
  if ds.length < 2 then '0' :: ds else ds

/-- Python decimal rendering of an int (`f"{n}"`). -/
def intRepr (n : Int) : List Char :=
  if n < 0 then '-' :: natDigits n.natAbs else natDigits n.toNat

/-- Embedding of `format_duration` (utils.py): `HH:MM:SS` or `MM:SS`, with
`0` (falsy) rendered as `"00:00"`.  Python `//` and `%` are floor
division/remainder, i.e. `Int.fdiv`/`Int.fmod`. -/
def formatDurationChars (seconds : Int) : List Char :=
  if seconds = 0 then ['0', '0', ':', '0', '0']
  else if 60 ≤ Int.fdiv seconds 60 then
    intRepr (Int.fdiv (Int.fdiv seconds 60) 60) ++ ':' ::
      (pad2 (intRepr (Int.fmod (Int.fdiv seconds 60) 60)) ++ ':' ::
        pad2 (intRepr (Int.fmod seconds 60)))
  else intRepr (Int.fdiv seconds 60) ++ ':' :: pad2 (intRepr (Int.fmod seconds 60))

/-- `format_duration` on a string result. -/
def format_duration (seconds : Int) : String := String.mk (formatDurationChars seconds)

/-! ### PlatformDetector (`PodcastParser.PLATFORMS`, `_detect_platform`,
crawler.py 22-43, 64-71) -/

/-- One entry of the `PLATFORMS` table (the source field `feed_prefix` is
carried as `feedTemplate`). -/
structure PlatformConfig where
  domains : List String
  feedTemplate : Option String
deriving DecidableEq

def xiaoyuzhouDomains : List String :=
  ["xiaoyuzhoufm.com", "www.xiaoyuzhoufm.com", "xyzfm.space"]

def neteaseDomains : List String := ["music.163.com"]

def appleDomains : List String := ["podcasts.apple.com"]

def spotifyDomains : List String := ["open.spotify.com"]

def rssDomains : List String := ["feed.xyzfm.space", "feeds.danlirencomedy.com"]

/-- The fixed, ordered platform table (Python dicts preserve insertion
order, so iteration order is the literal order of crawler.py 22-43). -/
def PLATFORMS : List (String × PlatformConfig) :=
  [("xiaoyuzhou", ⟨xiaoyuzhouDomains, some "https://feed.xiaoyuzhoufm.com/podcast/"⟩),
   ("netease", ⟨neteaseDomains, some "https://podcastrx.netlify.app/feed/netease/"⟩),
   ("apple", ⟨appleDomains, none⟩),
   ("spotify", ⟨spotifyDomains, none⟩),
   ("rss", ⟨rssDomains, none⟩)]

/-- `any(domain in url for domain in domains)`: the inner loop of
`_detect_platform`. -/
def domainsHit (domains : List String) (url : String) : Bool :=
  domains.any (fun d => containsSub d.data url.data)

/-- Outer loop of `_detect_platform`: first platform one of whose domains
occurs in the URL. -/
def detectGo (url : String) : List (String × PlatformConfig) → String
  | [] => "unknown"
  | (name, cfg) :: rest =>
    if domainsHit cfg.domains url then name else detectGo url rest

/-- Embedding of `PodcastParser._detect_platform`. -/
def _detect_platform (url : String) : String := detectGo url PLATFORMS

/-! ### NetEase / Apple / Spotify resolvers (crawler.py 186-259) -/

/-- The podcast-info dictionary the non-Xiaoyuzhou resolvers return. -/
structure PodcastDict where
  title : String
  description : String
  image_url : String
  rss_url : String
  feed_url : String
  author : String
  category : String
  episode_count : Nat
deriving DecidableEq

/-- The `podcast_id` computation of `_parse_netease` (crawler.py 189-198):
the `if "id=" in url` branch is committed to as soon as the substring
`id=` occurs — the `elif "/djradio/"` branch is not tried afterwards even
when the id regex finds no digits. -/
def neteaseId (url : String) : Option (List Char) :=
  if containsSub ("id=".data) url.data then
    searchDigitsAfterLit ("id=".data) url.data
  else if containsSub ("/djradio/".data) url.data then
    searchDigitsAfterLit ("/djradio/".data) url.data
  else none

/-- Embedding of `PodcastParser._parse_netease` (crawler.py 186-215).
`Except.error` models the `ValueError` raised when `podcast_id` stays
falsy (`None`, or an empty match — impossible for `(\d+)` but kept
faithful to `if not podcast_id`). -/
def _parse_netease (url : String) : Except String PodcastDict :=
  match neteaseId url with
  | none => .error ("无法解析网易云链接: " ++ url)
  | some [] => .error ("无法解析网易云链接: " ++ url)
  | some ds =>
    .ok { title := "网易云播客"
          description := ""
          image_url := ""
          rss_url := "https://podcastrx.netlify.app/feed/netease/" ++ String.mk ds
          feed_url := url
          author := ""
          category := "网易云"
          episode_count := 0 }

/-- The fields read out of `data["results"][0]` by `_parse_apple`;
`Option` models `dict.get` with the defaults applied at use sites. -/
structure AppleLookupInfo where
  collectionName : Option String
  artistViewUrl : Option String
  artworkUrl600 : Option String
  feedUrl : Option String
  artistName : Option String
  primaryGenreName : Option String
deriving DecidableEq

/-- Embedding of `PodcastParser._parse_apple` (crawler.py 217-244), with
the iTunes lookup HTTP call modelled by the `lookup` oracle mapping the
extracted id to the first result; `none` covers a transport error, a JSON
error, and an empty `results` list — all of which fall through to the
final `ValueError`. -/
def _parse_apple (lookup : String → Option AppleLookupInfo) (url : String) :
    Except String PodcastDict :=
  match searchDigitsAfterLit ("id".data) url.data with
  | some ds =>
    match lookup (String.mk ds) with
    | some info =>
      .ok { title := info.collectionName.getD "Apple 播客"
            description := info.artistViewUrl.getD ""
            image_url := info.artworkUrl600.getD ""
            rss_url := info.feedUrl.getD ""
            feed_url := url
            author := info.artistName.getD ""
            category := info.primaryGenreName.getD "Apple"
            episode_count := 0 }
    | none => .error ("无法解析 Apple Podcasts 链接: " ++ url)
  | none => .error ("无法解析 Apple Podcasts 链接: " ++ url)

/-- Embedding of `PodcastParser._parse_spotify` (crawler.py 246-259): a
pure stub. -/
def _parse_spotify (url : String) : PodcastDict :=
  { title := "Spotify 播客"
    description := "需要 Spotify API"
    image_url := ""
    rss_url := ""
    feed_url := url
    author := ""
    category := "Spotify"
    episode_count := 0 }

/-! ### Episode entry dictionaries (as built by crawler.py and consumed by
utils.py `sync_episodes`) -/

/-- An episode dictionary: `title` and `audio_url` are always set by the
producers in the source; `description`, `duration` and `pub_date` are read
with `dict.get` at the consumer, so they are optional here. -/
structure RawEntry where
  title : String
  description : Option String
  audio_url : String
  duration : Option Int
  pub_date : Option String
deriving DecidableEq

/-! ### Xiaoyuzhou HTML extraction (crawler.py 73-184) -/

/-- One element of the structured-data `workExample` list; every field is
read with `dict.get` and a string default in the source, so plain strings
suffice (`atType` models `ex.get("@type")`, which is only ever compared to
`"AudioObject"`). -/
structure SchemaEpisode where
  atType : String
  name : String
  durationStr : String
  datePublished : String
deriving DecidableEq

/-- The `author` field of the structured-data block: a dict (normalized via
`author.get("name", "")`) or any other JSON value (normalized via
`str(author)`). -/
inductive AuthorField where
  | obj (name : String)
  | raw (s : String)
deriving DecidableEq

/-- Normalization of the author field performed at crawler.py 91-95. -/
def authorName : AuthorField → String
  | .obj n => n
  | .raw s => s

/-- The parsed `schema:podcast-show` JSON-LD block, as read by the source
(`name`, `author`, `workExample`). -/
structure SchemaShow where
  name : String
  author : AuthorField
  workExample : List SchemaEpisode
deriving DecidableEq

/-- A JSON-parsing oracle modelling `json.loads` plus the duck-typed field
accesses: `none` covers both a `json.JSONDecodeError` and any shape
mismatch raised while iterating `workExample` — in the source either lands
in the same `except` handler. -/
def JsonOracle : Type := String → Option SchemaShow

/-- Generic leftmost-match driver: try the positional matcher at every
suffix, left to right. -/
def scanFirst {α : Type} (f : List Char → Option α) : List Char → Option α
  | [] => f []
  | c :: t =>
    match f (c :: t) with
    | some x => some x
    | none => scanFirst f t

/-- Positional matcher for
`<script[^>]*name="schema:podcast-show"[^>]*>([^<]+)</script>`:
the two `[^>]*` gaps cannot cross a `>`, so a match at this position needs
the attribute literal inside the `>`-free run after `<script`, then the
first `>`, then a non-empty `<`-free body followed by the closing
`</script>` literal (the greedy body cannot backtrack past a non-`<`
character). -/
def matchSchemaAt (cs : List Char) : Option (List Char) :=
  if ("<script".data).isPrefixOf cs then
    let rest := cs.drop 7
    let run := rest.takeWhile (fun d => d != '>')
    if containsSub ("name=\"schema:podcast-show\"".data) run then
      match rest.dropWhile (fun d => d != '>') with
      | '>' :: body =>
        let content := body.takeWhile (fun d => d != '<')
        if content ≠ [] ∧ ("</script>".data).isPrefixOf (body.dropWhile (fun d => d != '<'))
        then some content else none
      | _ => none
    else none
  else none

/-- The `re.search` of crawler.py 86/161: content of the first
`schema:podcast-show` script block. -/
def findSchemaContent : List Char → Option (List Char) :=
  scanFirst matchSchemaAt

/-- Index of the first occurrence of a substring, if any. -/
def findSubIdx (needle : List Char) : List Char → Option Nat
  | [] => if needle.isEmpty then some 0 else none
  | c :: t =>
    if needle.isPrefixOf (c :: t) then some 0
    else (findSubIdx needle t).map (· + 1)

/-- Python `haystack.find(needle, start)` with the negative-start slice
adjustment and `-1` for "not found". -/
def pyFindFrom (needle hay : List Char) (start : Int) : Int :=
  let s : Nat := if start < 0 then (hay.length + start).toNat else start.toNat
  match findSubIdx needle (hay.drop s) with
  | some j => (s + j : Nat)
  | none => -1

/-- Python `haystack.find(needle)`. -/
def pyFind (needle hay : List Char) : Int := pyFindFrom needle hay 0

/-- Positional matcher for the audio-URL pattern
`"(https://media\.xyzcdn\.net/[^"]+\.m4a[^"]*)"`, applied just after an
opening quote: the CDN literal, then a quote-free region that contains
`.m4a` at offset ≥ 1, closed by the next quote.  Returns the captured URL
and the remainder after the closing quote (matches are non-overlapping). -/
def matchAudio (t : List Char) : Option (List Char × List Char) :=
  let lit := "https://media.xyzcdn.net/".data
  if lit.isPrefixOf t then
    let rest1 := t.drop lit.length
    let region := rest1.takeWhile (fun d => d != '"')
    match rest1.dropWhile (fun d => d != '"') with
    | '"' :: rest2 =>
      if containsSub (".m4a".data) (region.drop 1) then some (lit ++ region, rest2)
      else none
    | _ => none
  else none

/-- Fuel-driven `re.findall` loop for the audio-URL pattern (structural so
concrete pages evaluate in the kernel; the fuel `cs.length` is always
sufficient because every step consumes at least one character). -/
def findAudioUrlsGo (fuel : Nat) (cs : List Char) : List (List Char) :=
  match fuel, cs with
  | _, [] => []
  | 0, _ => []
  | f + 1, c :: t =>
    if c = '"' then
      match matchAudio t with
      | some (u, rest) => u :: findAudioUrlsGo f rest
      | none => findAudioUrlsGo f t
    else findAudioUrlsGo f t

/-- All audio-URL matches in order. -/
def findAudioUrls (cs : List Char) : List (List Char) :=
  findAudioUrlsGo cs.length cs

/-- `list(dict.fromkeys(...))`: dedup keeping the first occurrence. -/
def firstDedupGo (seen : List (List Char)) : List (List Char) → List (List Char)
  | [] => []
  | u :: t => if u ∈ seen then firstDedupGo seen t else u :: firstDedupGo (u :: seen) t

def firstDedup (l : List (List Char)) : List (List Char) := firstDedupGo [] l

/-- The episode dictionary appended at crawler.py 108-113 / 174-179. -/
def joinEntry (ex : SchemaEpisode) (u : List Char) : RawEntry :=
  { title := ex.name
    description := none
    audio_url := String.mk u
    duration := some (_parse_duration ex.durationStr)
    pub_date := some ex.datePublished }

/-- The positional-join loop of crawler.py 105-113 / 172-179:
`for i, ex in enumerate(examples): if ex.get("@type") == "AudioObject" and
i < len(audio_urls): episodes.append(...)` — the enumeration index `i`
counts all `workExample` entries, and entry `i` is paired with audio URL
`i`. -/
def xiaoyuzhouJoin (examples : List SchemaEpisode) (audio_urls : List (List Char)) :
    List RawEntry :=
  examples.enum.filterMap (fun p =>
    if p.2.atType = "AudioObject" ∧ p.1 < audio_urls.length then
      some (joinEntry p.2 (audio_urls.getD p.1 []))
    else none)

/-- The audio-URL candidates of crawler.py 100-103 / 167-170: URLs are
extracted only from the page text after the end of the JSON-LD script
(located with two `str.find` calls), deduplicated in first-seen order. -/
def audioUrlsAfterJson (text : List Char) : List (List Char) :=
  let i1 := pyFind ("<script name=\"schema:podcast-show\"".data) text
  let jsonLdEnd := pyFindFrom ("</script>".data) text i1
  let afterJson := if 0 < jsonLdEnd then text.drop (jsonLdEnd.toNat + 9) else []
  firstDedup (findAudioUrls afterJson)

/-- Embedding of `PodcastParser._extract_xiaoyuzhou_episodes` (crawler.py
153-184).  The identical structured-data episode computation appears
inline at crawler.py 86-113; both places are this one function of the page
text and the JSON oracle. -/
def _extract_xiaoyuzhou_episodes (jl : JsonOracle) (text : List Char) : List RawEntry :=
  match findSchemaContent text with
  | none => []
  | some content =>
    match jl (String.mk content) with
    | none => []
    | some schema => xiaoyuzhouJoin schema.workExample (audioUrlsAfterJson text)

/-- Leftmost-occurrence search of a literal restricted to run before the
first occurrence of a stop character (embeds a `[^X]*lit` regex segment);
returns the remainder right after the literal. -/
def findLitStop (stop : Char) (lit : List Char) : List Char → Option (List Char)
  | [] => none
  | c :: t =>
    if lit.isPrefixOf (c :: t) then some ((c :: t).drop lit.length)
    else if c = stop then none
    else findLitStop stop lit t

/-- Generic quoted-field regex `lit([^"]{lo,hi})"` (with `hi = none` for an
unbounded `[^"]*`): at each occurrence of the literal the greedy quote-free
run must have an admissible length and be closed by a quote, otherwise the
scan moves to the next occurrence. -/
def searchQuotedField (lit : List Char) (lo : Nat) (hi : Option Nat) :
    List Char → Option (List Char)
  | [] => none
  | c :: t =>
    if lit.isPrefixOf (c :: t) then
      let rest := (c :: t).drop lit.length
      let region := rest.takeWhile (fun d => d != '"')
      if lo ≤ region.length ∧ (hi.all fun h => decide (region.length ≤ h))
          ∧ rest.dropWhile (fun d => d != '"') ≠ [] then some region
      else searchQuotedField lit lo hi t
    else searchQuotedField lit lo hi t

/-- Fallback title scan `"title":"([^"]{5,100})"` with default (crawler.py
122-123). -/
def fallbackTitleChars (text : List Char) : List Char :=
  (searchQuotedField ("\"title\":\"".data) 5 (some 100) text).getD ("未知播客".data)

/-- Fallback author scan `"author":"([^"]*)"` with default (crawler.py
125-126). -/
def fallbackAuthorChars (text : List Char) : List Char :=
  (searchQuotedField ("\"author\":\"".data) 0 none text).getD []

/-- Positional matcher for
`<meta[^>]*property="og:image"[^>]*content="([^"]+)"` (crawler.py 131): the
two attribute literals must appear, in order, inside the `>`-free run after
`<meta`; the captured value is the non-empty quote-free run after
`content="`, closed by a quote. -/
def matchOgImageAt (cs : List Char) : Option (List Char) :=
  if ("<meta".data).isPrefixOf cs then
    match findLitStop '>' ("property=\"og:image\"".data) (cs.drop 5) with
    | none => none
    | some after1 =>
      match findLitStop '>' ("content=\"".data) after1 with
      | none => none
      | some after2 =>
        let group := after2.takeWhile (fun d => d != '"')
        if group ≠ [] ∧ after2.dropWhile (fun d => d != '"') ≠ [] then some group
        else none
  else none

/-- The og:image extraction of crawler.py 131-132. -/
def searchOgImage (text : List Char) : Option (List Char) :=
  scanFirst matchOgImageAt text

/-- Alphanumeric class `[a-zA-Z0-9]` of the pid pattern. -/
def isAlnum (c : Char) : Bool :=
  isDig c || (97 ≤ c.toNat && c.toNat ≤ 122) || (65 ≤ c.toNat && c.toNat ≤ 90)

/-- Positional matcher for `"podcast":\{"[^}]*"pid":"([a-zA-Z0-9]+)"`
(crawler.py 135): after the opening literal, the `"pid":"` literal must
occur before any `}`; the captured id is the maximal alphanumeric run,
which must be closed by a quote. -/
def matchPidAt (cs : List Char) : Option (List Char) :=
  if ("\"podcast\":\x7b\"".data).isPrefixOf cs then
    match findLitStop '\x7d' ("\"pid\":\"".data) (cs.drop 11) with
    | none => none
    | some after1 =>
      let group := after1.takeWhile isAlnum
      match after1.drop group.length with
      | '"' :: _ => if group ≠ [] then some group else none
      | _ => none
  else none

/-- The podcast-id extraction of crawler.py 135-136. -/
def searchPid (text : List Char) : Option (List Char) :=
  scanFirst matchPidAt text

/-- The dictionary returned by `_parse_xiaoyuzhou` (crawler.py 141-151),
including the pre-fetched `_raw_episodes` batch. -/
structure XiaoyuzhouInfo where
  title : String
  description : String
  image_url : String
  rss_url : String
  feed_url : String
  author : String
  category : String
  episode_count : Nat
  raw_episodes : List RawEntry
deriving DecidableEq

/-- The title/author read in the primary structured-data branch
(crawler.py 87-95): both empty when the script block is missing or the
JSON oracle fails (the `except` handler and the no-match `else` both reset
them to `""`). -/
def primaryTitleAuthor (jl : JsonOracle) (text : List Char) : String × String :=
  match findSchemaContent text with
  | none => ("", "")
  | some content =>
    match jl (String.mk content) with
    | none => ("", "")
    | some schema => (schema.name, authorName schema.author)

/-- Embedding of `PodcastParser._parse_xiaoyuzhou` (crawler.py 73-151) on
an already-fetched page text: primary structured-data extraction, the
regex fallback for title/author plus `_extract_xiaoyuzhou_episodes` when
the primary episode list is empty, then cover-image and podcast-id
extraction and the feed-URL template. -/
def parse_xiaoyuzhou_page (jl : JsonOracle) (url : String) (text : List Char) :
    XiaoyuzhouInfo :=
  let eps := _extract_xiaoyuzhou_episodes jl text
  let ta := primaryTitleAuthor jl text
  let title := if eps.isEmpty then String.mk (fallbackTitleChars text) else ta.1
  let author := if eps.isEmpty then String.mk (fallbackAuthorChars text) else ta.2
  let episodes := if eps.isEmpty then _extract_xiaoyuzhou_episodes jl text else eps
  let image_url := (searchOgImage text).map String.mk |>.getD ""
  let podcast_id := (searchPid text).map String.mk |>.getD ""
  let rss_url :=
    if podcast_id ≠ "" then "https://feed.xiaoyuzhoufm.com/podcast/" ++ podcast_id
    else url
  { title := title
    description := ""
    image_url := image_url
    rss_url := rss_url
    feed_url := url
    author := author
    category := "小宇宙"
    episode_count := episodes.length
    raw_episodes := episodes }

/-- Result of `PodcastParser.parse_url`: the `(platform, info)` pair, one
variant per platform branch. -/
inductive ParseResult where
  | xiaoyuzhou (info : XiaoyuzhouInfo)
  | netease (info : PodcastDict)
  | apple (info : PodcastDict)
  | spotify (info : PodcastDict)
  | rss (info : PodcastDict)
deriving DecidableEq

/-- HTTP oracle: `requests.get(url).text`, with `Except.error` modelling a
transport exception (timeout, connection error), which `_parse_xiaoyuzhou`
does not catch. -/
def HttpOracle : Type := String → Except String String

/-- Embedding of `PodcastParser._parse_xiaoyuzhou` including its uncaught
page fetch. -/
def _parse_xiaoyuzhou (jl : JsonOracle) (http : HttpOracle) (url : String) :
    Except String XiaoyuzhouInfo :=
  (http url).map (fun text => parse_xiaoyuzhou_page jl url text.data)

/-- Embedding of `PodcastParser.parse_url` (crawler.py 45-62): detect the
platform, dispatch to the matching branch, and raise
`ValueError(f"不支持的平台: {url}")` otherwise.  `_parse_rss_url` is a pure
oracle here: its body is network fetch plus feed parsing, and it never
raises (crawler.py 326-339 catches every exception and returns a stub
dictionary). -/
def parse_url (jl : JsonOracle) (http : HttpOracle)
    (lookup : String → Option AppleLookupInfo) (rssResolve : String → PodcastDict)
    (url : String) : Except String ParseResult :=
  match _detect_platform url with
  | "xiaoyuzhou" => (_parse_xiaoyuzhou jl http url).map ParseResult.xiaoyuzhou
  | "netease" => (_parse_netease url).map ParseResult.netease
  | "apple" => (_parse_apple lookup url).map ParseResult.apple
  | "spotify" => .ok (ParseResult.spotify (_parse_spotify url))
  | "rss" => .ok (ParseResult.rss (rssResolve url))
  | _ => .error ("不支持的平台: " ++ url)

/-- Modelled from the spec (§4.2): the fallback episode production the spec
describes for the Xiaoyuzhou resolver — "the same audio-URL extraction"
over the page, "producing episodes with only title+audio_url populated (no
date/duration)".  No corresponding code exists in src/crawler.py (its
fallback at lines 120-128 only rescans title/author and re-runs the same
structured-data extraction), so this definition follows the spec's words:
one episode per extracted audio URL, carrying the regex-scanned title and
the audio URL and nothing else. -/
def specFallbackEpisodes (text : List Char) : List RawEntry :=
  (firstDedup (findAudioUrls text)).map (fun u =>
    { title := String.mk (fallbackTitleChars text)
      description := none
      audio_url := String.mk u
      duration := none
      pub_date := none })

/-! ### EpisodeSynchronizer (`sync_episodes`, utils.py 46-78) -/

/-- A persisted episode row (database.py `Episode`), with the publish
timestamp abstracted to the raw `pub_date` value handed to
`parse_entry_pub_date` (the parsed timestamp is irrelevant to every claim
and depends on the wall clock). -/
structure EpisodeRow where
  podcast : Nat
  title : String
  description : String
  audio_url : String
  duration : Int
  pub_date : Option String
  episode_num : Nat
deriving DecidableEq

/-- The persisted state visible to `sync_episodes`: podcast rows carry
`(id, episode_count)`; episode rows are kept in insertion order. -/
structure DB where
  podcasts : List (Nat × Nat)
  episodes : List EpisodeRow
deriving DecidableEq

/-- `Podcast.update(episode_count=n).where(Podcast.id == podcast_id)`. -/
def updateEpisodeCount (pid n : Nat) (db : DB) : DB :=
  { db with podcasts := db.podcasts.map (fun p => if p.1 = pid then (p.1, n) else p) }

/-- The snapshot
`{ep.audio_url for ep in Episode.select(...).where(Episode.podcast == podcast_id)}`. -/
def podcastUrls (pid : Nat) (db : DB) : List String :=
  (db.episodes.filter (fun e => e.podcast == pid)).map (fun e => e.audio_url)

/-- The row built by `Episode.create(...)` at utils.py 64-72 (`episode_num`
is the constant placeholder 0). -/
def mkRow (pid : Nat) (e : RawEntry) : EpisodeRow :=
  { podcast := pid
    title := e.title
    description := e.description.getD ""
    audio_url := e.audio_url
    duration := e.duration.getD 0
    pub_date := e.pub_date
    episode_num := 0 }

/-- Append one created episode row. -/
def insertEpisode (pid : Nat) (e : RawEntry) (db : DB) : DB :=
  { db with episodes := db.episodes ++ [mkRow pid e] }

/-- Fault injection for the collaborators inside the `try` block of
`sync_episodes`: an exception while obtaining the entries, in the
episode-count update, in the snapshot select, or in the k-th
`Episode.create` call. -/
structure SyncFaults where
  fetchFails : Bool
  updateFails : Bool
  selectFails : Bool
  createFailsAt : Option Nat
deriving DecidableEq

/-- The fault-free run. -/
def noFaults : SyncFaults := ⟨false, false, false, none⟩

/-- `entries = raw_episodes if raw_episodes else PodcastParser.get_episodes(rss_url)`:
the prefetched batch is used only when it is truthy (non-`None` and
non-empty). -/
def chooseEntries (raw : Option (List RawEntry)) (fetched : List RawEntry) :
    List RawEntry :=
  match raw with
  | some (e :: es) => e :: es
  | _ => fetched

/-- Whether the fetch path is taken (the prefetched batch is falsy). -/
def usesFetch (raw : Option (List RawEntry)) : Bool :=
  match raw with
  | some (_ :: _) => false
  | _ => true

/-- The insert loop of utils.py 59-73: membership is checked against the
snapshot as extended with the URLs inserted earlier in the same run; `k`
counts `Episode.create` calls for the fault injection.  An `error` result
carries the state reached when the exception fires. -/
def syncLoop (pid : Nat) (failAt : Option Nat) :
    Nat → List String → DB → List RawEntry → Except DB DB
  | _, _, db, [] => .ok db
  | k, seen, db, e :: rest =>
    if e.audio_url ∈ seen then syncLoop pid failAt k seen db rest
    else if failAt = some k then .error db
    else syncLoop pid failAt (k + 1) (e.audio_url :: seen) (insertEpisode pid e db) rest

/-- The body of the `try` block of `sync_episodes` (utils.py 48-75): choose
the batch, unconditionally store its length as the episode count, snapshot
the existing audio URLs, then run the insert loop. -/
def syncBody (pid : Nat) (faults : SyncFaults) (fetched : List RawEntry)
    (raw : Option (List RawEntry)) (db : DB) : Except DB DB :=
  if usesFetch raw && faults.fetchFails then .error db
  else if faults.updateFails then .error db
  else
    let entries := chooseEntries raw fetched
    let db1 := updateEpisodeCount pid entries.length db
    if faults.selectFails then .error db1
    else syncLoop pid faults.createFailsAt 0 (podcastUrls pid db1) db1 entries

/-- Embedding of `sync_episodes` (utils.py 46-78): the whole body runs
under `try`/`except Exception`, so an exception anywhere leaves the state
already reached and returns normally.  `fetch` is the
`PodcastParser.get_episodes` oracle (itself network-bound). -/
def sync_episodes (fetch : String → List RawEntry) (faults : SyncFaults)
    (pid : Nat) (rss_url : String) (raw : Option (List RawEntry)) (db : DB) : DB :=
  match syncBody pid faults (fetch rss_url) raw db with
  | .ok s => s
  | .error s => s

/-! ## Proof layer -/

lemma isDig_digitChar (n : Nat) : isDig (digitChar n) = true := by
  unfold digitChar
  split <;> decide

lemma dval_digitChar (n : Nat) (h : n < 10) : dval (digitChar n) = n := by
  interval_cases n <;> decide

lemma natDigitsGo_digits : ∀ fuel n, n ≤ fuel + 9 → ∀ c ∈ natDigitsGo fuel n, isDig c = true := by
  intro fuel
  induction fuel with
  | zero =>
    intro n hn c hc
    unfold natDigitsGo at hc
    rw [if_pos (by omega)] at hc
    simp at hc
    subst hc
    exact isDig_digitChar n
  | succ f ih =>
    intro n hn c hc
    unfold natDigitsGo at hc
    by_cases h10 : n < 10
    · rw [if_pos h10] at hc
      simp at hc
      subst hc
      exact isDig_digitChar n
    · rw [if_neg h10] at hc
      simp only [List.mem_append, List.mem_singleton] at hc
      rcases hc with hc | hc
      · exact ih (n / 10) (by omega) c hc
      · subst hc
        exact isDig_digitChar _

lemma natDigitsGo_ne_nil : ∀ fuel n, n ≤ fuel + 9 → natDigitsGo fuel n ≠ [] := by
  intro fuel n hn
  unfold natDigitsGo
  by_cases h10 : n < 10
  · rw [if_pos h10]; simp
  · rw [if_neg h10]
    cases fuel with
    | zero => omega
    | succ f => simp

lemma digitsVal_append_single (ds : List Char) (c : Char) :
    digitsVal (ds ++ [c]) = 10 * digitsVal ds + dval c := by
  simp [digitsVal, List.foldl_append]

lemma natDigitsGo_val : ∀ fuel n, n ≤ fuel + 9 → digitsVal (natDigitsGo fuel n) = n := by
  intro fuel
  induction fuel with
  | zero =>
    intro n hn
    unfold natDigitsGo
    rw [if_pos (by omega)]
    simp [digitsVal]
    exact dval_digitChar n (by omega)
  | succ f ih =>
    intro n hn
    unfold natDigitsGo
    by_cases h10 : n < 10
    · rw [if_pos h10]
      simp [digitsVal]
      exact dval_digitChar n h10
    · rw [if_neg h10]
      rw [digitsVal_append_single]
      rw [ih (n / 10) (by omega)]
      rw [dval_digitChar (n % 10) (by omega)]
      omega

lemma natDigits_digits (n : Nat) : ∀ c ∈ natDigits n, isDig c = true :=
  natDigitsGo_digits n n (by omega)

lemma natDigits_ne_nil (n : Nat) : natDigits n ≠ [] := natDigitsGo_ne_nil n n (by omega)

lemma natDigits_val (n : Nat) : digitsVal (natDigits n) = n :=
  natDigitsGo_val n n (by omega)

lemma digit_ne_of (c : Char) (h : isDig c = true) (x : Char) (hx : isDig x = false) :
    c ≠ x := by
  intro he
  subst he
  rw [h] at hx
  cases hx

lemma digitsTail_of_digits : ∀ (ds : List Char) (acc : Nat),
    (∀ c ∈ ds, isDig c = true) →
    digitsTail acc ds = some (ds.foldl (fun a c => 10 * a + dval c) acc) := by
  intro ds
  induction ds with
  | nil => intro acc _; rfl
  | cons c t ih =>
    intro acc h
    unfold digitsTail
    rw [if_pos (h c (by simp))]
    rw [ih _ (fun x hx => h x (by simp [hx]))]
    rfl

lemma digitsToNat_of_digits (ds : List Char) (hne : ds ≠ [])
    (h : ∀ c ∈ ds, isDig c = true) : digitsToNat? ds = some (digitsVal ds) := by
  cases ds with
  | nil => exact absurd rfl hne
  | cons c t =>
    rw [show digitsToNat? (c :: t) = if isDig c then digitsTail (dval c) t else none from rfl]
    rw [if_pos (h c (by simp))]
    rw [digitsTail_of_digits t (dval c) (fun x hx => h x (by simp [hx]))]
    simp [digitsVal]

lemma dropWhile_eq_self_of_all {p : Char → Bool} :
    ∀ cs : List Char, (∀ c ∈ cs, p c = false) → cs.dropWhile p = cs := by
  intro cs h
  cases cs with
  | nil => rfl
  | cons c t =>
    rw [List.dropWhile_cons]
    rw [h c (by simp)]
    simp

lemma trimWs_eq_self (cs : List Char) (h : ∀ c ∈ cs, isPySpace c = false) :
    trimWs cs = cs := by
  unfold trimWs
  rw [dropWhile_eq_self_of_all cs h]
  rw [dropWhile_eq_self_of_all cs.reverse (fun c hc => h c (List.mem_reverse.mp hc))]
  exact List.reverse_reverse cs

lemma isDig_not_space (c : Char) (h : isDig c = true) : isPySpace c = false := by
  unfold isDig at h
  unfold isPySpace
  simp only [Bool.and_eq_true, decide_eq_true_eq] at h
  simp only [Bool.or_eq_false_iff, decide_eq_false_iff_not]
  omega

lemma pyInt_of_digits (ds : List Char) (hne : ds ≠ [])
    (h : ∀ c ∈ ds, isDig c = true) : pyInt ds = some ((digitsVal ds : Nat) : Int) := by
  unfold pyInt
  rw [trimWs_eq_self ds (fun c hc => isDig_not_space c (h c hc))]
  cases ds with
  | nil => exact absurd rfl hne
  | cons c t =>
    have hc : isDig c = true := h c (by simp)
    show pyIntSigned c t = _
    unfold pyIntSigned
    rw [if_neg (digit_ne_of c hc '-' (by decide))]
    rw [if_neg (digit_ne_of c hc '+' (by decide))]
    rw [digitsToNat_of_digits (c :: t) (by simp) h]
    rfl

lemma pyInt_natDigits (n : Nat) : pyInt (natDigits n) = some (n : Int) := by
  rw [pyInt_of_digits (natDigits n) (natDigits_ne_nil n) (natDigits_digits n)]
  rw [natDigits_val n]

lemma digitsVal_cons_zero (ds : List Char) : digitsVal ('0' :: ds) = digitsVal ds := by
  simp only [digitsVal, List.foldl_cons]
  rw [show 10 * 0 + dval '0' = 0 from by decide]

lemma pad2_digits (ds : List Char) (h : ∀ c ∈ ds, isDig c = true) :
    ∀ c ∈ pad2 ds, isDig c = true := by
  intro c hc
  unfold pad2 at hc
  split at hc
  · rcases List.mem_cons.mp hc with hc | hc
    · subst hc; decide
    · exact h c hc
  · exact h c hc

lemma pad2_ne_nil (ds : List Char) : pad2 ds ≠ [] := by
  unfold pad2
  split
  · simp
  · next h =>
    intro he
    rw [he] at h
    simp at h

lemma pyInt_pad2 (n : Nat) : pyInt (pad2 (natDigits n)) = some (n : Int) := by
  unfold pad2
  split
  · rw [pyInt_of_digits _ (by simp)
      (fun c hc => by
        rcases List.mem_cons.mp hc with hc | hc
        · subst hc; decide
        · exact natDigits_digits n c hc)]
    rw [digitsVal_cons_zero, natDigits_val n]
  · exact pyInt_natDigits n

lemma splitOnColon_no_colon : ∀ cs : List Char, (∀ c ∈ cs, c ≠ ':') →
    splitOnColon cs = [cs] := by
  intro cs
  induction cs with
  | nil => intro _; rfl
  | cons c t ih =>
    intro h
    unfold splitOnColon
    rw [if_neg (h c (by simp))]
    rw [ih (fun x hx => h x (by simp [hx]))]

lemma splitOnColon_append : ∀ (a b : List Char), (∀ c ∈ a, c ≠ ':') →
    splitOnColon (a ++ ':' :: b) = a :: splitOnColon b := by
  intro a
  induction a with
  | nil =>
    intro b _
    simp only [List.nil_append]
    rw [splitOnColon]
    rw [if_pos rfl]
  | cons c a' ih =>
    intro b h
    simp only [List.cons_append]
    rw [splitOnColon]
    rw [if_neg (h c (by simp))]
    rw [ih b (fun x hx => h x (by simp [hx]))]

lemma isPTPrefix_cons_digit (c : Char) (t : List Char) (h : isDig c = true) :
    isPTPrefix (c :: t) = false := by
  have hne : c ≠ 'P' := digit_ne_of c h 'P' (by decide)
  rw [show isPTPrefix (c :: t) = (('P' == c) && List.isPrefixOf ['T'] t) from rfl]
  simp [hne]
  intro he
  exact absurd he.symm hne

lemma digit_ne_colon (c : Char) (h : isDig c = true) : c ≠ ':' :=
  digit_ne_of c h ':' (by decide)

lemma parseDuration_two (A B : List Char) (x y : Int)
    (hA : ∀ c ∈ A, isDig c = true) (hAne : A ≠ [])
    (hB : ∀ c ∈ B, c ≠ ':')
    (hvA : pyInt A = some x) (hvB : pyInt B = some y) :
    parseDurationChars (A ++ ':' :: B) = x * 60 + y := by
  obtain ⟨c, A', rfl⟩ : ∃ c A', A = c :: A' := by
    cases A with
    | nil => exact absurd rfl hAne
    | cons c A' => exact ⟨c, A', rfl⟩
  unfold parseDurationChars
  rw [if_neg (by simp)]
  rw [if_neg (by simp [isPTPrefix_cons_digit c _ (hA c (by simp))])]
  rw [show (c :: A') ++ ':' :: B = c :: (A' ++ ':' :: B) from rfl]
  rw [show splitOnColon (c :: (A' ++ ':' :: B)) = splitOnColon ((c :: A') ++ ':' :: B) from rfl]
  rw [splitOnColon_append (c :: A') B (fun d hd => digit_ne_colon d (hA d hd))]
  rw [splitOnColon_no_colon B hB]
  show (match pyInt (c :: A'), pyInt B with
        | some x, some y => x * 60 + y
        | _, _ => 0) = x * 60 + y
  rw [hvA, hvB]

lemma parseDuration_three (A B C : List Char) (x y z : Int)
    (hA : ∀ c ∈ A, isDig c = true) (hAne : A ≠ [])
    (hB : ∀ c ∈ B, c ≠ ':') (hC : ∀ c ∈ C, c ≠ ':')
    (hvA : pyInt A = some x) (hvB : pyInt B = some y) (hvC : pyInt C = some z) :
    parseDurationChars (A ++ ':' :: (B ++ ':' :: C)) = x * 3600 + y * 60 + z := by
  obtain ⟨c, A', rfl⟩ : ∃ c A', A = c :: A' := by
    cases A with
    | nil => exact absurd rfl hAne
    | cons c A' => exact ⟨c, A', rfl⟩
  unfold parseDurationChars
  rw [if_neg (by simp)]
  rw [if_neg (by simp [isPTPrefix_cons_digit c _ (hA c (by simp))])]
  rw [show (c :: A') ++ ':' :: (B ++ ':' :: C) = c :: (A' ++ ':' :: (B ++ ':' :: C)) from rfl]
  rw [show splitOnColon (c :: (A' ++ ':' :: (B ++ ':' :: C)))
      = splitOnColon ((c :: A') ++ ':' :: (B ++ ':' :: C)) from rfl]
  rw [splitOnColon_append (c :: A') _ (fun d hd => digit_ne_colon d (hA d hd))]
  rw [splitOnColon_append B C hB]
  rw [splitOnColon_no_colon C hC]
  show (match pyInt (c :: A'), pyInt B, pyInt C with
        | some x, some y, some z => x * 3600 + y * 60 + z
        | _, _, _ => 0) = x * 3600 + y * 60 + z
  rw [hvA, hvB, hvC]

lemma intRepr_ofNat (n : Nat) : intRepr (n : Int) = natDigits n := by
  unfold intRepr
  rw [if_neg (by omega)]
  congr 1

lemma fdiv_cast (m k : Nat) : Int.fdiv (m : Int) (k : Int) = ((m / k : Nat) : Int) :=
  (Int.ofNat_fdiv m k).symm

lemma fmod_cast (m k : Nat) : Int.fmod (m : Int) (k : Int) = ((m % k : Nat) : Int) :=
  (Int.ofNat_fmod m k).symm

lemma formatDurationChars_small (s : Nat) (h0 : s ≠ 0) (h : s < 3600) :
    formatDurationChars (s : Int) = natDigits (s / 60) ++ ':' :: pad2 (natDigits (s % 60)) := by
  unfold formatDurationChars
  rw [if_neg (by exact_mod_cast h0)]
  rw [show ((60 : Int) = ((60 : Nat) : Int)) from rfl]
  rw [fdiv_cast s 60, fmod_cast s 60]
  rw [if_neg (by exact_mod_cast (by omega : ¬(60 ≤ s / 60)))]
  rw [intRepr_ofNat, intRepr_ofNat]

lemma formatDurationChars_big (s : Nat) (h : 3600 ≤ s) :
    formatDurationChars (s : Int) =
      natDigits (s / 60 / 60) ++ ':' ::
        (pad2 (natDigits (s / 60 % 60)) ++ ':' :: pad2 (natDigits (s % 60))) := by
  unfold formatDurationChars
  rw [if_neg (by exact_mod_cast (by omega : ¬(s = 0)))]
  rw [show ((60 : Int) = ((60 : Nat) : Int)) from rfl]
  rw [fdiv_cast s 60, fmod_cast s 60]
  rw [fdiv_cast (s / 60) 60, fmod_cast (s / 60) 60]
  rw [if_pos (by exact_mod_cast (by omega : 60 ≤ s / 60))]
  rw [intRepr_ofNat, intRepr_ofNat, intRepr_ofNat]

lemma splitOnColon_chars : ∀ (cs : List Char) (p : List Char), p ∈ splitOnColon cs →
    ∀ c ∈ p, c ∈ cs := by
  intro cs
  induction cs with
  | nil =>
    intro p hp c hc
    simp only [splitOnColon] at hp
    simp at hp
    subst hp
    cases hc
  | cons d t ih =>
    intro p hp c hc
    rw [splitOnColon] at hp
    by_cases hd : d = ':'
    · rw [if_pos hd] at hp
      rcases List.mem_cons.mp hp with hp | hp
      · subst hp; cases hc
      · exact List.mem_cons_of_mem d (ih p hp c hc)
    · rw [if_neg hd] at hp
      cases hsp : splitOnColon t with
      | nil =>
        rw [hsp] at hp
        simp at hp
        subst hp
        rcases List.mem_cons.mp hc with hc | hc
        · simp [hc]
        · cases hc
      | cons h0 r =>
        rw [hsp] at hp
        rcases List.mem_cons.mp hp with hp | hp
        · subst hp
          rcases List.mem_cons.mp hc with hc | hc
          · simp [hc]
          · exact List.mem_cons_of_mem d (ih h0 (hsp ▸ List.mem_cons_self h0 r) c hc)
        · exact List.mem_cons_of_mem d (ih p (hsp ▸ List.mem_cons_of_mem h0 hp) c hc)

lemma trimWs_chars (cs : List Char) (c : Char) (hc : c ∈ trimWs cs) : c ∈ cs := by
  unfold trimWs at hc
  rw [List.mem_reverse] at hc
  have h1 := (List.dropWhile_sublist (l := (cs.dropWhile isPySpace).reverse)
    (p := isPySpace)).subset hc
  rw [List.mem_reverse] at h1
  exact (List.dropWhile_sublist (l := cs) (p := isPySpace)).subset h1

lemma pyInt_nonneg (cs : List Char) (hm : '-' ∉ cs) (v : Int) (hv : pyInt cs = some v) :
    0 ≤ v := by
  cases ht : trimWs cs with
  | nil =>
    simp only [pyInt, ht] at hv
    cases hv
  | cons c rest =>
    simp only [pyInt, ht] at hv
    unfold pyIntSigned at hv
    have hcm : c ∈ cs := trimWs_chars cs c (ht ▸ List.mem_cons_self c rest)
    rw [if_neg (by intro he; subst he; exact hm hcm)] at hv
    by_cases hp : c = '+'
    · rw [if_pos hp] at hv
      cases hn : digitsToNat? rest with
      | none => rw [hn] at hv; cases hv
      | some n =>
        rw [hn] at hv
        simp at hv
        omega
    · rw [if_neg hp] at hv
      cases hn : digitsToNat? (c :: rest) with
      | none => rw [hn] at hv; cases hv
      | some n =>
        rw [hn] at hv
        simp at hv
        omega

/-- C4: `_parse_duration` maps "PT1H2M3S" to 3723, "40:43" to 2443,
"1:23:35" to 5015, "" to 0 and "abc" to 0; more generally every non-empty,
non-ISO, colon-free string rejected by `int` yields 0 (the bare `except`
maps every parse failure to 0, and the embedding is a total function, so
no input raises). -/
theorem duration_normalizer_examples :
    _parse_duration "PT1H2M3S" = 3723 ∧
    _parse_duration "40:43" = 2443 ∧
    _parse_duration "1:23:35" = 5015 ∧
    _parse_duration "" = 0 ∧
    _parse_duration "abc" = 0 ∧
    (∀ s : String, s.data ≠ [] → isPTPrefix s.data = false →
      (∀ c ∈ s.data, c ≠ ':') → pyInt s.data = none → _parse_duration s = 0) := by
  refine ⟨by decide, by decide, by decide, by decide, by decide, ?_⟩
  intro s h1 h2 h3 h4
  unfold _parse_duration parseDurationChars
  rw [if_neg h1]
  rw [if_neg (by simp [h2])]
  rw [splitOnColon_no_colon s.data h3]
  simp [h4]

/-- C4 witness: the general unparseable clause instantiated at "xy". -/
theorem duration_normalizer_examples_witness : _parse_duration "xy" = 0 :=
  duration_normalizer_examples.2.2.2.2.2 "xy" (by decide) (by decide)
    (by decide) (by decide)

/-- C9 counterexample: `_parse_duration` is not non-negative on every
input — the bare-integer branch forwards Python `int`'s sign, so "-5"
parses to -5 and an `EpisodeEntry` built from it would carry a negative
duration. -/
theorem duration_negative_counterexample :
    _parse_duration "-5" = -5 ∧ ¬(0 ≤ _parse_duration "-5") := by
  constructor
  · decide
  · decide

/-- C9 amended: for every input string containing no minus sign,
`_parse_duration` returns a non-negative integer (the ISO branch sums
natural products, the error default is 0, and the colon/bare branches go
through `int`, which can only produce a negative value from an explicit
minus sign). -/
theorem duration_nonneg_without_minus (s : String) (hm : '-' ∉ s.data) :
    0 ≤ _parse_duration s := by
  unfold _parse_duration parseDurationChars
  split
  · omega
  · split
    · exact Int.natCast_nonneg _
    · split
      · next a b c hsp =>
        have ha : ∀ d ∈ a, d ∈ s.data :=
          splitOnColon_chars s.data a (hsp ▸ (by simp))
        have hb : ∀ d ∈ b, d ∈ s.data :=
          splitOnColon_chars s.data b (hsp ▸ (by simp))
        have hc : ∀ d ∈ c, d ∈ s.data :=
          splitOnColon_chars s.data c (hsp ▸ (by simp))
        split
        · next x y z hx hy hz =>
          have h1 := pyInt_nonneg a (fun hin => hm (ha '-' hin)) x hx
          have h2 := pyInt_nonneg b (fun hin => hm (hb '-' hin)) y hy
          have h3 := pyInt_nonneg c (fun hin => hm (hc '-' hin)) z hz
          have : 0 ≤ x * 3600 := by positivity
          have : 0 ≤ y * 60 := by positivity
          omega
        · omega
      · next a b hsp =>
        have ha : ∀ d ∈ a, d ∈ s.data :=
          splitOnColon_chars s.data a (hsp ▸ (by simp))
        have hb : ∀ d ∈ b, d ∈ s.data :=
          splitOnColon_chars s.data b (hsp ▸ (by simp))
        split
        · next x y hx hy =>
          have h1 := pyInt_nonneg a (fun hin => hm (ha '-' hin)) x hx
          have h2 := pyInt_nonneg b (fun hin => hm (hb '-' hin)) y hy
          have : 0 ≤ x * 60 := by positivity
          omega
        · omega
      · cases hp : pyInt s.data with
        | none => simp [hp]
        | some v =>
          simp [hp]
          exact pyInt_nonneg s.data hm v hp

/-- C9 witness: the amended claim instantiated at "7". -/
theorem duration_nonneg_without_minus_witness : 0 ≤ _parse_duration "7" :=
  duration_nonneg_without_minus "7" (by decide)

/-- C10: parsing the clock string produced by `format_duration` recovers
the original number of seconds, for every non-negative integer. -/
theorem duration_format_roundtrip (s : Nat) :
    _parse_duration (format_duration (s : Int)) = (s : Int) := by
  by_cases h0 : s = 0
  · subst h0; decide
  · unfold _parse_duration format_duration
    rw [show (String.mk (formatDurationChars (s : Int))).data
        = formatDurationChars (s : Int) from rfl]
    by_cases h36 : s < 3600
    · rw [formatDurationChars_small s h0 h36]
      rw [parseDuration_two (natDigits (s / 60)) (pad2 (natDigits (s % 60)))
            ((s / 60 : Nat) : Int) ((s % 60 : Nat) : Int)
            (natDigits_digits _) (natDigits_ne_nil _)
            (fun c hc => digit_ne_colon c (pad2_digits _ (natDigits_digits _) c hc))
            (pyInt_natDigits _) (pyInt_pad2 _)]
      omega
    · rw [formatDurationChars_big s (by omega)]
      rw [parseDuration_three (natDigits (s / 60 / 60)) (pad2 (natDigits (s / 60 % 60)))
            (pad2 (natDigits (s % 60)))
            ((s / 60 / 60 : Nat) : Int) ((s / 60 % 60 : Nat) : Int) ((s % 60 : Nat) : Int)
            (natDigits_digits _) (natDigits_ne_nil _)
            (fun c hc => digit_ne_colon c (pad2_digits _ (natDigits_digits _) c hc))
            (fun c hc => digit_ne_colon c (pad2_digits _ (natDigits_digits _) c hc))
            (pyInt_natDigits _) (pyInt_pad2 _) (pyInt_pad2 _)]
      omega

/-- C5: `_detect_platform` scans the fixed ordered platform table and
returns the first platform one of whose domain substrings occurs in the
URL ("xiaoyuzhoufm.com" always yields xiaoyuzhou since it heads the table;
the later platforms win exactly when no earlier domain matches), returns
"unknown" when no domain matches (never failing), and `parse_url` raises
the UnsupportedPlatform `ValueError` exactly on an unknown-classified
URL.  Concrete instances for the spec's examples are included. -/
theorem platform_detection_first_match :
    (∀ url : String, containsSub ("xiaoyuzhoufm.com".data) url.data = true →
      _detect_platform url = "xiaoyuzhou") ∧
    (∀ url : String, domainsHit xiaoyuzhouDomains url = false →
      domainsHit neteaseDomains url = true → _detect_platform url = "netease") ∧
    (∀ url : String, domainsHit xiaoyuzhouDomains url = false →
      domainsHit neteaseDomains url = false → domainsHit appleDomains url = true →
      _detect_platform url = "apple") ∧
    (∀ url : String, domainsHit xiaoyuzhouDomains url = false →
      domainsHit neteaseDomains url = false → domainsHit appleDomains url = false →
      domainsHit spotifyDomains url = true → _detect_platform url = "spotify") ∧
    (∀ url : String, domainsHit xiaoyuzhouDomains url = false →
      domainsHit neteaseDomains url = false → domainsHit appleDomains url = false →
      domainsHit spotifyDomains url = false → domainsHit rssDomains url = true →
      _detect_platform url = "rss") ∧
    (∀ url : String, domainsHit xiaoyuzhouDomains url = false →
      domainsHit neteaseDomains url = false → domainsHit appleDomains url = false →
      domainsHit spotifyDomains url = false → domainsHit rssDomains url = false →
      _detect_platform url = "unknown") ∧
    _detect_platform "https://www.xiaoyuzhoufm.com/podcast/612345" = "xiaoyuzhou" ∧
    _detect_platform "https://music.163.com/#/djradio?id=1" = "netease" ∧
    _detect_platform "https://podcasts.apple.com/us/podcast/id123" = "apple" ∧
    _detect_platform "https://example.com/episodes/1" = "unknown" ∧
    (∀ (jl : JsonOracle) (http : HttpOracle) (lookup : String → Option AppleLookupInfo)
        (rssResolve : String → PodcastDict) (url : String),
      _detect_platform url = "unknown" →
      parse_url jl http lookup rssResolve url = .error ("不支持的平台: " ++ url)) := by
  have hdet : ∀ url : String, _detect_platform url =
      (if domainsHit xiaoyuzhouDomains url then "xiaoyuzhou"
       else if domainsHit neteaseDomains url then "netease"
       else if domainsHit appleDomains url then "apple"
       else if domainsHit spotifyDomains url then "spotify"
       else if domainsHit rssDomains url then "rss"
       else "unknown") := fun url => rfl
  refine ⟨?_, ?_, ?_, ?_, ?_, ?_, by decide, by decide, by decide, by decide, ?_⟩
  · intro url h
    rw [hdet]
    rw [if_pos (by simp [domainsHit, xiaoyuzhouDomains, h])]
  · intro url h1 h2
    rw [hdet, h1, h2]
    rfl
  · intro url h1 h2 h3
    rw [hdet, h1, h2, h3]
    rfl
  · intro url h1 h2 h3 h4
    rw [hdet, h1, h2, h3, h4]
    rfl
  · intro url h1 h2 h3 h4 h5
    rw [hdet, h1, h2, h3, h4, h5]
    rfl
  · intro url h1 h2 h3 h4 h5
    rw [hdet, h1, h2, h3, h4, h5]
    rfl
  · intro jl http lookup rssResolve url h
    unfold parse_url
    rw [h]
    rfl

/-- C5 witness: the netease first-match clause instantiated at a concrete
URL (no xiaoyuzhou domain occurs, "music.163.com" does). -/
theorem platform_detection_first_match_witness :
    _detect_platform "https://music.163.com/radio" = "netease" :=
  platform_detection_first_match.2.1 "https://music.163.com/radio"
    (by decide) (by decide)

lemma searchDigitsAfterLit_ne_nil (lit : List Char) :
    ∀ (cs ds : List Char), searchDigitsAfterLit lit cs = some ds → ds ≠ [] := by
  intro cs
  induction cs with
  | nil => intro ds h; cases h
  | cons c t ih =>
    intro ds h
    unfold searchDigitsAfterLit at h
    split at h
    · split at h
      · next d rest hdrop =>
        split at h
        · next hd =>
          rw [List.takeWhile_cons, if_pos hd] at h
          cases h
          simp
        · exact ih ds h
      · exact ih ds h
    · exact ih ds h

lemma searchDigitsAfterLit_sub (lit : List Char) :
    ∀ (cs ds : List Char), searchDigitsAfterLit lit cs = some ds →
      containsSub lit cs = true := by
  intro cs
  induction cs with
  | nil => intro ds h; cases h
  | cons c t ih =>
    intro ds h
    unfold searchDigitsAfterLit at h
    unfold containsSub
    split at h
    · next hp => simp [hp]
    · next hp => simp [ih ds h]

/-- The stub dictionary `_parse_netease` returns around the derived feed
URL. -/
def neteaseDict (url : String) (ds : List Char) : PodcastDict :=
  { title := "网易云播客"
    description := ""
    image_url := ""
    rss_url := "https://podcastrx.netlify.app/feed/netease/" ++ String.mk ds
    feed_url := url
    author := ""
    category := "网易云"
    episode_count := 0 }

/-- C6 counterexample: the claim "extracts an id whenever either shape is
present" fails — this URL contains the path shape `/djradio/123`, yet the
resolver raises because the substring `id=` occurs (without digits) and
commits the branch. -/
theorem netease_djradio_shadowed_counterexample :
    searchDigitsAfterLit ("/djradio/".data)
        ("https://music.163.com/djradio/123?id=".data) = some ("123".data) ∧
    _parse_netease "https://music.163.com/djradio/123?id=" =
      .error ("无法解析网易云链接: " ++ "https://music.163.com/djradio/123?id=") :=
  ⟨by decide, by decide⟩

/-- C6 amended: the query check takes precedence and is exclusive — when
the URL contains the substring `id=`, only `id=(\d+)` is tried (a hit
builds the canonical feed URL from the digits, a miss raises
MalformedPlatformId even if `/djradio/<digits>` is present); only when
`id=` is absent is the `/djradio/(\d+)` shape tried, raising exactly when
it finds no digits. -/
theorem netease_resolution_precedence :
    (∀ url : String, containsSub ("id=".data) url.data = true →
      (∀ ds : List Char, searchDigitsAfterLit ("id=".data) url.data = some ds →
        _parse_netease url = .ok (neteaseDict url ds)) ∧
      (searchDigitsAfterLit ("id=".data) url.data = none →
        _parse_netease url = .error ("无法解析网易云链接: " ++ url))) ∧
    (∀ url : String, containsSub ("id=".data) url.data = false →
      (∀ ds : List Char, searchDigitsAfterLit ("/djradio/".data) url.data = some ds →
        _parse_netease url = .ok (neteaseDict url ds)) ∧
      (containsSub ("/djradio/".data) url.data = true →
        searchDigitsAfterLit ("/djradio/".data) url.data = none →
        _parse_netease url = .error ("无法解析网易云链接: " ++ url)) ∧
      (containsSub ("/djradio/".data) url.data = false →
        _parse_netease url = .error ("无法解析网易云链接: " ++ url))) := by
  constructor
  · intro url h
    constructor
    · intro ds hds
      have hid : neteaseId url = some ds := by
        unfold neteaseId
        rw [if_pos h]
        exact hds
      have hne := searchDigitsAfterLit_ne_nil ("id=".data) url.data ds hds
      unfold _parse_netease
      rw [hid]
      cases ds with
      | nil => exact absurd rfl hne
      | cons d t => rfl
    · intro hnone
      have hid : neteaseId url = none := by
        unfold neteaseId
        rw [if_pos h]
        exact hnone
      unfold _parse_netease
      rw [hid]
  · intro url h
    refine ⟨?_, ?_, ?_⟩
    · intro ds hds
      have hocc := searchDigitsAfterLit_sub ("/djradio/".data) url.data ds hds
      have hid : neteaseId url = some ds := by
        unfold neteaseId
        rw [if_neg (by simp [h])]
        rw [if_pos hocc]
        exact hds
      have hne := searchDigitsAfterLit_ne_nil ("/djradio/".data) url.data ds hds
      unfold _parse_netease
      rw [hid]
      cases ds with
      | nil => exact absurd rfl hne
      | cons d t => rfl
    · intro hocc hnone
      have hid : neteaseId url = none := by
        unfold neteaseId
        rw [if_neg (by simp [h])]
        rw [if_pos hocc]
        exact hnone
      unfold _parse_netease
      rw [hid]
    · intro hocc
      have hid : neteaseId url = none := by
        unfold neteaseId
        rw [if_neg (by simp [h])]
        rw [if_neg (by simp [hocc])]
      unfold _parse_netease
      rw [hid]

/-- C6 witness: both amended success shapes at concrete URLs — the query
shape and the path shape each resolve to the canonical feed URL. -/
theorem netease_resolution_precedence_witness :
    _parse_netease "https://music.163.com/#/djradio?id=123" =
      .ok (neteaseDict "https://music.163.com/#/djradio?id=123" ("123".data)) ∧
    _parse_netease "https://music.163.com/djradio/456" =
      .ok (neteaseDict "https://music.163.com/djradio/456" ("456".data)) :=
  ⟨(netease_resolution_precedence.1 "https://music.163.com/#/djradio?id=123"
      (by decide)).1 ("123".data) (by decide),
   ((netease_resolution_precedence.2 "https://music.163.com/djradio/456"
      (by decide)).1 ("456".data) (by decide))⟩

/-- A Xiaoyuzhou page with no structured-data script block but with a
quoted title field, a quoted author field and one extractable CDN audio
URL — the situation the spec's fallback description is about. -/
def xyzFallbackPage : List Char :=
  ("x \"title\":\"My Podcast\" \"author\":\"A\" \"https://media.xyzcdn.net/ep1.m4a\" y").data

/-- C7 counterexample: on a page where the primary path yields zero
episodes, the spec-described fallback would produce one episode carrying
the scanned title and the extracted audio URL, but the code's fallback
(which re-runs the same structured-data extraction) produces no episode at
all. -/
theorem xiaoyuzhou_fallback_counterexample :
    (parse_xiaoyuzhou_page (fun _ => none) "https://www.xiaoyuzhoufm.com/podcast/p"
        xyzFallbackPage).raw_episodes = [] ∧
    specFallbackEpisodes xyzFallbackPage =
      [⟨"My Podcast", none, "https://media.xyzcdn.net/ep1.m4a", none, none⟩] :=
  ⟨by decide, by decide⟩

/-- C7 amended: whenever the primary structured-data path yields zero
episodes, the fallback performs the two independent regex scans for a
quoted title and a quoted author field (populating the podcast's title and
author), but its episode list comes from re-running the same
structured-data extraction on the same page and is therefore empty as
well — no title+audio_url-only episodes are ever produced. -/
theorem xiaoyuzhou_fallback_behavior :
    ∀ (jl : JsonOracle) (url : String) (text : List Char),
      _extract_xiaoyuzhou_episodes jl text = [] →
      (parse_xiaoyuzhou_page jl url text).raw_episodes = [] ∧
      (parse_xiaoyuzhou_page jl url text).episode_count = 0 ∧
      (parse_xiaoyuzhou_page jl url text).title = String.mk (fallbackTitleChars text) ∧
      (parse_xiaoyuzhou_page jl url text).author = String.mk (fallbackAuthorChars text) := by
  intro jl url text h
  refine ⟨?_, ?_, ?_, ?_⟩ <;> simp [parse_xiaoyuzhou_page, h]

/-- C7 witness: the amended claim instantiated at the concrete page (the
JSON oracle is never consulted since no script block exists). -/
theorem xiaoyuzhou_fallback_behavior_witness :
    (parse_xiaoyuzhou_page (fun _ => none) "u" xyzFallbackPage).raw_episodes = [] ∧
    (parse_xiaoyuzhou_page (fun _ => none) "u" xyzFallbackPage).title = "My Podcast" := by
  have h := xiaoyuzhou_fallback_behavior (fun _ => none) "u" xyzFallbackPage (by decide)
  exact ⟨h.1, by rw [h.2.2.1]; decide⟩

lemma join_aux (urls : List (List Char)) :
    ∀ (exs : List SchemaEpisode) (n : Nat),
      (∀ ex ∈ exs, ex.atType = "AudioObject") →
      (List.enumFrom n exs).filterMap (fun p =>
          if p.2.atType = "AudioObject" ∧ p.1 < urls.length then
            some (joinEntry p.2 (urls.getD p.1 []))
          else none)
        = (exs.zip (urls.drop n)).map (fun p => joinEntry p.1 p.2) := by
  intro exs
  induction exs with
  | nil => intro n h; simp
  | cons e exs ih =>
    intro n h
    rw [List.enumFrom_cons]
    rw [List.filterMap_cons]
    have he : e.atType = "AudioObject" := h e (by simp)
    by_cases hn : n < urls.length
    · rw [if_pos ⟨he, hn⟩]
      rw [List.drop_eq_getElem_cons hn]
      rw [List.zip_cons_cons, List.map_cons]
      rw [ih (n + 1) (fun x hx => h x (by simp [hx]))]
      rw [List.getD_eq_getElem urls [] hn]
    · rw [if_neg (by tauto)]
      rw [ih (n + 1) (fun x hx => h x (by simp [hx]))]
      have h1 : urls.drop n = [] := List.drop_eq_nil_of_le (by omega)
      have h2 : urls.drop (n + 1) = [] := List.drop_eq_nil_of_le (by omega)
      rw [h1, h2]
      simp

/-- C8: on a `workExample` list of structured episode objects, the
positional join pairs the i-th episode object with the i-th extracted
audio URL (it is exactly the zip) and stops at the minimum of the two
counts; in particular 5 episode objects joined with 3 audio URLs give
exactly 3 episodes, paired 1:1 in order. -/
theorem xiaoyuzhou_positional_join :
    (∀ (examples : List SchemaEpisode) (audio_urls : List (List Char)),
      (∀ ex ∈ examples, ex.atType = "AudioObject") →
      xiaoyuzhouJoin examples audio_urls
        = (examples.zip audio_urls).map (fun p => joinEntry p.1 p.2) ∧
      (xiaoyuzhouJoin examples audio_urls).length
        = min examples.length audio_urls.length) ∧
    xiaoyuzhouJoin
        [⟨"AudioObject", "e1", "", ""⟩, ⟨"AudioObject", "e2", "", ""⟩,
         ⟨"AudioObject", "e3", "", ""⟩, ⟨"AudioObject", "e4", "", ""⟩,
         ⟨"AudioObject", "e5", "", ""⟩]
        [("a").data, ("b").data, ("c").data]
      = [joinEntry ⟨"AudioObject", "e1", "", ""⟩ ("a").data,
         joinEntry ⟨"AudioObject", "e2", "", ""⟩ ("b").data,
         joinEntry ⟨"AudioObject", "e3", "", ""⟩ ("c").data] := by
  constructor
  · intro exs urls h
    have hj : xiaoyuzhouJoin exs urls
        = (exs.zip urls).map (fun p => joinEntry p.1 p.2) := by
      unfold xiaoyuzhouJoin
      rw [show List.enum exs = List.enumFrom 0 exs from rfl]
      rw [join_aux urls exs 0 h]
      rw [List.drop_zero]
    refine ⟨hj, ?_⟩
    rw [hj]
    simp [List.length_zip]
  · decide

/-- C8 witness: the general join clause instantiated at one episode object
and two audio URLs. -/
theorem xiaoyuzhou_positional_join_witness :
    xiaoyuzhouJoin [⟨"AudioObject", "x", "", ""⟩] [("u").data, ("v").data]
      = [joinEntry ⟨"AudioObject", "x", "", ""⟩ ("u").data] ∧
    (xiaoyuzhouJoin [⟨"AudioObject", "x", "", ""⟩] [("u").data, ("v").data]).length
      = 1 := by
  have h := xiaoyuzhou_positional_join.1 [⟨"AudioObject", "x", "", ""⟩]
    [("u").data, ("v").data] (by decide)
  refine ⟨?_, ?_⟩
  · rw [h.1]; decide
  · rw [h.2]; decide
lemma podcastUrls_update (pid n : Nat) (db : DB) :
    podcastUrls pid (updateEpisodeCount pid n db) = podcastUrls pid db := rfl

lemma podcastUrls_insert (pid : Nat) (e : RawEntry) (db : DB) :
    podcastUrls pid (insertEpisode pid e db) = podcastUrls pid db ++ [e.audio_url] := by
  unfold podcastUrls insertEpisode mkRow
  simp

lemma insert_podcasts (pid : Nat) (e : RawEntry) (db : DB) :
    (insertEpisode pid e db).podcasts = db.podcasts := rfl

lemma syncLoop_run : ∀ (entries : List RawEntry) (pid k : Nat) (seen : List String) (db : DB),
    (podcastUrls pid db).Nodup →
    (∀ u, u ∈ seen ↔ u ∈ podcastUrls pid db) →
    ∃ db' : DB,
      syncLoop pid none k seen db entries = .ok db' ∧
      (podcastUrls pid db').Nodup ∧
      (∀ u, u ∈ podcastUrls pid db' ↔
        u ∈ seen ∨ u ∈ entries.map (fun e => e.audio_url)) ∧
      db'.podcasts = db.podcasts := by
  intro entries
  induction entries with
  | nil =>
    intro pid k seen db hnd hseen
    refine ⟨db, rfl, hnd, ?_, rfl⟩
    intro u
    simp [hseen u]
  | cons e rest ih =>
    intro pid k seen db hnd hseen
    by_cases hmem : e.audio_url ∈ seen
    · obtain ⟨db', h1, h2, h3, h4⟩ := ih pid k seen db hnd hseen
      refine ⟨db', ?_, h2, ?_, h4⟩
      · unfold syncLoop
        rw [if_pos hmem]
        exact h1
      · intro u
        rw [h3 u]
        simp only [List.map_cons, List.mem_cons]
        constructor
        · rintro (hu | hu)
          · exact Or.inl hu
          · exact Or.inr (Or.inr hu)
        · rintro (hu | hu | hu)
          · exact Or.inl hu
          · subst hu
            exact Or.inl hmem
          · exact Or.inr hu
    · have hnotdb : e.audio_url ∉ podcastUrls pid db := fun hc => hmem ((hseen _).mpr hc)
      have hnd2 : (podcastUrls pid (insertEpisode pid e db)).Nodup := by
        rw [podcastUrls_insert]
        rw [show podcastUrls pid db ++ [e.audio_url]
            = (podcastUrls pid db).concat e.audio_url from (List.concat_eq_append _ _).symm]
        exact List.Nodup.concat hnotdb hnd
      have hseen2 : ∀ u, u ∈ e.audio_url :: seen ↔
          u ∈ podcastUrls pid (insertEpisode pid e db) := by
        intro u
        rw [podcastUrls_insert]
        simp only [List.mem_cons, List.mem_append, List.mem_singleton]
        rw [hseen u]
        tauto
      obtain ⟨db', h1, h2, h3, h4⟩ :=
        ih pid (k + 1) (e.audio_url :: seen) (insertEpisode pid e db) hnd2 hseen2
      refine ⟨db', ?_, h2, ?_, by rw [h4]; rfl⟩
      · unfold syncLoop
        rw [if_neg hmem]
        rw [if_neg (by simp)]
        exact h1
      · intro u
        rw [h3 u]
        simp only [List.mem_cons, List.map_cons]
        tauto

lemma syncLoop_noop : ∀ (entries : List RawEntry) (pid : Nat) (failAt : Option Nat)
    (k : Nat) (seen : List String) (db : DB),
    (∀ e ∈ entries, e.audio_url ∈ seen) →
    syncLoop pid failAt k seen db entries = .ok db := by
  intro entries
  induction entries with
  | nil => intro pid failAt k seen db _; rfl
  | cons e rest ih =>
    intro pid failAt k seen db h
    unfold syncLoop
    rw [if_pos (h e (by simp))]
    exact ih pid failAt k seen db (fun x hx => h x (by simp [hx]))

lemma syncLoop_isOk : ∀ (entries : List RawEntry) (pid k : Nat)
    (seen : List String) (db : DB),
    ∃ db', syncLoop pid none k seen db entries = .ok db' := by
  intro entries
  induction entries with
  | nil => intro pid k seen db; exact ⟨db, rfl⟩
  | cons e rest ih =>
    intro pid k seen db
    by_cases hmem : e.audio_url ∈ seen
    · obtain ⟨db', h⟩ := ih pid k seen db
      refine ⟨db', ?_⟩
      unfold syncLoop
      rw [if_pos hmem]
      exact h
    · obtain ⟨db', h⟩ := ih pid (k + 1) (e.audio_url :: seen) (insertEpisode pid e db)
      refine ⟨db', ?_⟩
      unfold syncLoop
      rw [if_neg hmem]
      rw [if_neg (by simp)]
      exact h

lemma updateCount_map_idem (pid n : Nat) (l : List (Nat × Nat)) :
    (l.map (fun p => if p.1 = pid then (p.1, n) else p)).map
        (fun p => if p.1 = pid then (p.1, n) else p)
      = l.map (fun p => if p.1 = pid then (p.1, n) else p) := by
  rw [List.map_map]
  apply List.map_congr_left
  intro p _
  by_cases hp : p.1 = pid
  · simp [hp]
  · simp [hp]

lemma updateCount_fixpoint (pid n : Nat) (db : DB)
    (h : db.podcasts.map (fun p => if p.1 = pid then (p.1, n) else p) = db.podcasts) :
    updateEpisodeCount pid n db = db := by
  unfold updateEpisodeCount
  rw [h]

lemma updateCount_mem (pid n : Nat) (db : DB) (c : Nat)
    (h : (pid, c) ∈ (updateEpisodeCount pid n db).podcasts) : c = n := by
  unfold updateEpisodeCount at h
  simp only at h
  obtain ⟨p, hp, hfp⟩ := List.mem_map.mp h
  by_cases h1 : p.1 = pid
  · rw [if_pos h1] at hfp
    exact ((Prod.mk.injEq _ _ _ _).mp hfp).2.symm
  · rw [if_neg h1] at hfp
    subst hfp
    exact absurd rfl h1

/-- C1: under the audio_url-uniqueness invariant, a fault-free
`sync_episodes` run preserves uniqueness (no row is ever inserted for an
audio_url already present, and a URL repeated inside one batch is inserted
once), a second identical run changes nothing, and after the run every
audio_url of the batch is stored exactly once for the podcast. -/
theorem sync_unique_audio_urls (fetch : String → List RawEntry) (pid : Nat)
    (rss_url : String) (raw : Option (List RawEntry)) (db : DB)
    (hnd : (podcastUrls pid db).Nodup) :
    (podcastUrls pid (sync_episodes fetch noFaults pid rss_url raw db)).Nodup ∧
    sync_episodes fetch noFaults pid rss_url raw
        (sync_episodes fetch noFaults pid rss_url raw db)
      = sync_episodes fetch noFaults pid rss_url raw db ∧
    ∀ u ∈ (chooseEntries raw (fetch rss_url)).map (fun e => e.audio_url),
      (podcastUrls pid (sync_episodes fetch noFaults pid rss_url raw db)).count u = 1 := by
  obtain ⟨db', hrun, hnd', hmem', hpods⟩ :=
    syncLoop_run (chooseEntries raw (fetch rss_url)) pid 0
      (podcastUrls pid (updateEpisodeCount pid
        (chooseEntries raw (fetch rss_url)).length db))
      (updateEpisodeCount pid (chooseEntries raw (fetch rss_url)).length db)
      hnd (fun u => Iff.rfl)
  have hsync : sync_episodes fetch noFaults pid rss_url raw db = db' := by
    unfold sync_episodes syncBody
    simp only [noFaults, Bool.and_false, Bool.false_eq_true, if_false]
    rw [hrun]
  have hupd : updateEpisodeCount pid (chooseEntries raw (fetch rss_url)).length db'
      = db' := by
    apply updateCount_fixpoint
    rw [hpods]
    exact updateCount_map_idem pid (chooseEntries raw (fetch rss_url)).length db.podcasts
  have hsync2 : sync_episodes fetch noFaults pid rss_url raw db' = db' := by
    unfold sync_episodes syncBody
    simp only [noFaults, Bool.and_false, Bool.false_eq_true, if_false]
    rw [hupd]
    rw [syncLoop_noop (chooseEntries raw (fetch rss_url)) pid none 0
      (podcastUrls pid db') db'
      (fun e he => (hmem' e.audio_url).mpr (Or.inr (List.mem_map_of_mem _ he)))]
  refine ⟨?_, ?_, ?_⟩
  · rw [hsync]; exact hnd'
  · rw [hsync]; exact hsync2
  · intro u hu
    rw [hsync]
    exact List.count_eq_one_of_mem hnd' ((hmem' u).mpr (Or.inr hu))

lemma syncLoop_podcasts : ∀ (entries : List RawEntry) (pid k : Nat)
    (seen : List String) (db : DB),
    ∃ db', syncLoop pid none k seen db entries = .ok db' ∧ db'.podcasts = db.podcasts := by
  intro entries
  induction entries with
  | nil => intro pid k seen db; exact ⟨db, rfl, rfl⟩
  | cons e rest ih =>
    intro pid k seen db
    by_cases hmem : e.audio_url ∈ seen
    · obtain ⟨db', h, hp⟩ := ih pid k seen db
      refine ⟨db', ?_, hp⟩
      unfold syncLoop
      rw [if_pos hmem]
      exact h
    · obtain ⟨db', h, hp⟩ := ih pid (k + 1) (e.audio_url :: seen) (insertEpisode pid e db)
      refine ⟨db', ?_, by rw [hp]; rfl⟩
      unfold syncLoop
      rw [if_neg hmem]
      rw [if_neg (by simp)]
      exact h

lemma updateCount_set (pid n : Nat) (db : DB) (c0 : Nat)
    (h : (pid, c0) ∈ db.podcasts) :
    (pid, n) ∈ (updateEpisodeCount pid n db).podcasts := by
  unfold updateEpisodeCount
  simp only
  refine List.mem_map.mpr ⟨(pid, c0), h, ?_⟩
  rw [if_pos rfl]

/-- C2: every fault-free run unconditionally sets the podcast's stored
episode_count to the length of the chosen batch — the prefetched batch
when non-empty, else the freshly fetched list — regardless of the episodes
already persisted (the `chooseEntries` clauses spell out the batch
choice). -/
theorem sync_reported_episode_count (fetch : String → List RawEntry) (pid : Nat)
    (rss_url : String) (raw : Option (List RawEntry)) (db : DB) :
    (∀ c : Nat, (pid, c) ∈ (sync_episodes fetch noFaults pid rss_url raw db).podcasts →
      c = (chooseEntries raw (fetch rss_url)).length) ∧
    (∀ c0 : Nat, (pid, c0) ∈ db.podcasts →
      (pid, (chooseEntries raw (fetch rss_url)).length)
        ∈ (sync_episodes fetch noFaults pid rss_url raw db).podcasts) ∧
    chooseEntries none (fetch rss_url) = fetch rss_url ∧
    chooseEntries (some []) (fetch rss_url) = fetch rss_url ∧
    (∀ (e : RawEntry) (es : List RawEntry),
      chooseEntries (some (e :: es)) (fetch rss_url) = e :: es) := by
  obtain ⟨db', hrun, hpods⟩ :=
    syncLoop_podcasts (chooseEntries raw (fetch rss_url)) pid 0
      (podcastUrls pid (updateEpisodeCount pid
        (chooseEntries raw (fetch rss_url)).length db))
      (updateEpisodeCount pid (chooseEntries raw (fetch rss_url)).length db)
  have hsync : sync_episodes fetch noFaults pid rss_url raw db = db' := by
    unfold sync_episodes syncBody
    simp only [noFaults, Bool.and_false, Bool.false_eq_true, if_false]
    rw [hrun]
  refine ⟨?_, ?_, rfl, rfl, fun e es => rfl⟩
  · intro c hc
    rw [hsync, hpods] at hc
    exact updateCount_mem pid _ db c hc
  · intro c0 h0
    rw [hsync, hpods]
    exact updateCount_set pid _ db c0 h0

/-- C3 amended: `sync_episodes` never raises past its boundary — every
injected fault is caught and a state is returned — and a failed run is a
no-op exactly when the failure precedes the first write (fetch or
episode-count-update failure); a failure at the snapshot select already
leaves the episode-count update in place, and a fault-free run returns the
`ok` state of the body (nothing to catch). -/
theorem sync_exception_containment (fetch : String → List RawEntry)
    (faults : SyncFaults) (pid : Nat) (rss_url : String)
    (raw : Option (List RawEntry)) (db : DB) :
    ((usesFetch raw && faults.fetchFails) = true →
      sync_episodes fetch faults pid rss_url raw db = db) ∧
    (faults.updateFails = true →
      sync_episodes fetch faults pid rss_url raw db = db) ∧
    ((usesFetch raw && faults.fetchFails) = false → faults.updateFails = false →
      faults.selectFails = true →
      sync_episodes fetch faults pid rss_url raw db
        = updateEpisodeCount pid (chooseEntries raw (fetch rss_url)).length db) ∧
    syncBody pid noFaults (fetch rss_url) raw db
      = .ok (sync_episodes fetch noFaults pid rss_url raw db) := by
  refine ⟨?_, ?_, ?_, ?_⟩
  · intro h
    unfold sync_episodes syncBody
    rw [if_pos h]
  · intro h
    unfold sync_episodes syncBody
    by_cases h1 : (usesFetch raw && faults.fetchFails) = true
    · rw [if_pos h1]
    · rw [if_neg h1, if_pos h]
  · intro h1 h2 h3
    unfold sync_episodes syncBody
    rw [if_neg (by simp [h1]), if_neg (by simp [h2])]
    simp only
    rw [if_pos h3]
  · obtain ⟨db', hrun, hpods⟩ :=
      syncLoop_podcasts (chooseEntries raw (fetch rss_url)) pid 0
        (podcastUrls pid (updateEpisodeCount pid
          (chooseEntries raw (fetch rss_url)).length db))
        (updateEpisodeCount pid (chooseEntries raw (fetch rss_url)).length db)
    have hbody : syncBody pid noFaults (fetch rss_url) raw db = .ok db' := by
      unfold syncBody
      simp only [noFaults, Bool.and_false, Bool.false_eq_true, if_false]
      exact hrun
    have hs : sync_episodes fetch noFaults pid rss_url raw db = db' := by
      unfold sync_episodes
      rw [hbody]
    rw [hs]
    exact hbody

/-- C1 witness: the dedup/idempotence theorem at a concrete batch with a
repeated URL against an empty store — the repeated URL is stored once. -/
theorem sync_unique_audio_urls_witness :
    (podcastUrls 1 (sync_episodes (fun _ => []) noFaults 1 "r"
        (some [⟨"t1", none, "u1", none, none⟩, ⟨"t2", none, "u2", none, none⟩,
               ⟨"t3", none, "u1", none, none⟩])
        ⟨[(1, 0)], []⟩)).count "u1" = 1 := by
  have h := sync_unique_audio_urls (fun _ => []) 1 "r"
    (some [⟨"t1", none, "u1", none, none⟩, ⟨"t2", none, "u2", none, none⟩,
           ⟨"t3", none, "u1", none, none⟩])
    ⟨[(1, 0)], []⟩ (by decide)
  exact h.2.2 "u1" (by decide)

/-- C2 witness: the episode-count theorem at a concrete store where one of
two batch entries is already persisted — the stored count is still the
batch length 2. -/
theorem sync_reported_episode_count_witness :
    (1, 2) ∈ (sync_episodes (fun _ => []) noFaults 1 "r"
        (some [⟨"t1", none, "u1", none, none⟩, ⟨"t2", none, "u2", none, none⟩])
        ⟨[(1, 7)], [⟨1, "t1", "", "u1", 0, none, 0⟩]⟩).podcasts := by
  have h := sync_reported_episode_count (fun _ => []) 1 "r"
    (some [⟨"t1", none, "u1", none, none⟩, ⟨"t2", none, "u2", none, none⟩])
    ⟨[(1, 7)], [⟨1, "t1", "", "u1", 0, none, 0⟩]⟩
  exact h.2.1 7 (by decide)

/-- C3 counterexample: a persistence failure at the second `Episode.create`
is caught, but the run is not a no-op — the first episode row and the
episode-count update persist (one episode was synced, not zero, and the
state differs from the state before the run). -/
theorem sync_partial_failure_counterexample :
    sync_episodes (fun _ => []) ⟨false, false, false, some 1⟩ 1 "rss"
        (some [⟨"t1", none, "u1", none, none⟩, ⟨"t2", none, "u2", none, none⟩])
        ⟨[(1, 0)], []⟩
      = ⟨[(1, 2)], [⟨1, "t1", "", "u1", 0, none, 0⟩]⟩ ∧
    (⟨[(1, 2)], [⟨1, "t1", "", "u1", 0, none, 0⟩]⟩ : DB) ≠ ⟨[(1, 0)], []⟩ ∧
    (⟨[(1, 2)], [⟨1, "t1", "", "u1", 0, none, 0⟩]⟩ : DB).episodes.length = 1 :=
  ⟨by decide, by decide, by decide⟩

/-- C3 witness: the containment theorem at a concrete store with a failing
episode-count update — the run is a no-op. -/
theorem sync_exception_containment_witness :
    sync_episodes (fun _ => []) ⟨false, true, false, none⟩ 1 "r" none ⟨[(1, 5)], []⟩
      = ⟨[(1, 5)], []⟩ :=
  (sync_exception_containment (fun _ => []) ⟨false, true, false, none⟩ 1 "r" none
    ⟨[(1, 5)], []⟩).2.1 rfl
